import Mathlib

/-!
Shallow embedding of the disparador-sms worker and API campaign logic.

Sources embedded:
- `src/apps/worker/src/drivers/google-messages.ts` — `GoogleMessagesClient`
  (`verifyMessageSent`, `sendText`, `sendImage`) and the send-message job
  handler (`handleSendMessage`, `sendImageMessage`, `checkCampaignCompletion`).
- `src/unnamed/part_004` — campaign routes (`POST /:id/start`, `POST /:id/pause`).
- `src/unnamed/part_010` — session job handlers (`handleSessionConnect`).
- `src/migrations/001_init.sql` — column defaults (`attempts INT DEFAULT 0`,
  `max_attempts INT DEFAULT 3`, `status DEFAULT 'queued'`).
- worker `index.ts` / API queue plugin — pg-boss `retryLimit: 3` (a thrown
  job is re-executed by the queue up to 3 more times).
-/

namespace SmsDispatch

/-- Message statuses, from the `messages.status` CHECK constraint. -/
inductive MsgStatus
  | queued | sending | sent | delivered | failed | cancelled
deriving DecidableEq, Repr

/-- Campaign statuses, from the `campaigns.status` CHECK constraint. -/
inductive CampStatus
  | draft | scheduled | running | paused | completed | cancelled
deriving DecidableEq, Repr

/-- Persisted session row statuses (`sessions.status`). -/
inductive SessStatus
  | disconnected | needsQr | connected | error
deriving DecidableEq, Repr

/-- Result of `GoogleMessagesClient.detectState()`. -/
inductive DriverState
  | needsQr | connected | error
deriving DecidableEq, Repr

/-- `SendResult` interface of the driver (`success`, `error?`,
`fallbackUsed?`, `screenshotPath?`); absent optional booleans read as
`false` (the handler stores `result.fallbackUsed || false`). -/
structure SendResult where
  success : Bool
  error : Option String
  screenshotPath : Option String
  fallbackUsed : Bool
deriving DecidableEq, Repr

/-! ## `GoogleMessagesClient.verifyMessageSent` (driver, lines 382-403)

The page-level observations (whether an exception occurred while probing,
whether the `messageError` selector matched, whether the `messageSent`
selector matched) are the environment of one verification call. -/

/-- Observations available to one `verifyMessageSent()` call. -/
structure VerifyEnv where
  pageAvailable : Bool
  threw : Bool
  hasErrorIndicator : Bool
  hasSentIndicator : Bool
deriving DecidableEq, Repr

/-- `verifyMessageSent()`: returns `false` when `this.page` is null or the
probe throws; returns `false` when an error indicator is present; otherwise
returns `hasSent !== null || true`. -/
def verifyMessageSent (env : VerifyEnv) : Bool :=
  if !env.pageAvailable then false
  else if env.threw then false
  else if env.hasErrorIndicator then false
  else (env.hasSentIndicator || true)

/-! ## Session registry acquisition

Two call sites read the process-wide `ctx.sessions : Map<string, Client>`:
`handleSendMessage` (drivers file, lines 472-486) and `handleSessionConnect`
(`src/unnamed/part_010`, lines 29-43).  Handles are modelled by an opaque
numeric identity; the driver calls performed during acquisition are logged. -/

/-- Driver calls a handler may perform while acquiring a handle. -/
inductive SessionAction
  | launch (h : Nat)
  | detectState (h : Nat)
deriving DecidableEq, Repr

/-- Handle acquisition inside `handleSendMessage`: reuse the registry entry
untouched when present; otherwise create a client, `launch()` it, probe
`detectState()`, and only register it (and proceed) when the probe says
connected — a non-connected probe throws (`none`). -/
def sendAcquire (reg : Option Nat) (fresh : Nat) (probe : DriverState) :
    Option (Nat × Option Nat × List SessionAction) :=
  match reg with
  | some client => some (client, some client, [])
  | none =>
      if probe = DriverState.connected then
        some (fresh, some fresh, [SessionAction.launch fresh, SessionAction.detectState fresh])
      else none

/-- Handle acquisition inside `handleSessionConnect` (part_010 lines 29-43):
reuse or create the registry entry, then unconditionally `launch()` the
client and probe `detectState()` — also for an existing live handle. -/
def connectAcquire (reg : Option Nat) (fresh : Nat) :
    Nat × Option Nat × List SessionAction :=
  match reg with
  | some client =>
      (client, some client, [SessionAction.launch client, SessionAction.detectState client])
  | none =>
      (fresh, some fresh, [SessionAction.launch fresh, SessionAction.detectState fresh])

/-! ## Template rendering (campaign start, part_004 lines 271-281)

The route renders each contact's body with JS regex replacement:
`bodyText.replace(/\x7bnome\x7d/gi, contact.name || '')`, the same for
`\x7bname\x7d`, then for each `[key, value]` of `contact.custom_fields`
`bodyText.replace(new RegExp('\\\x7b' + key + '\\\x7d', 'gi'), String(value))`.
Global case-insensitive literal replacement is embedded as a scan over the
character list. -/

/-- Case-insensitive literal prefix match: when `pat` (lower-cased) is a
prefix of `s` (lower-cased), return the remainder of `s`. -/
def stripCI : List Char → List Char → Option (List Char)
  | [], s => some s
  | _ :: _, [] => none
  | p :: ps, c :: cs => if p.toLower = c.toLower then stripCI ps cs else none

/-- Worker for `replaceCI`, structurally recursive on a fuel argument so
that it evaluates by kernel reduction; each scan step consumes at least one
character of `s`, so fuel `s.length` is always sufficient. -/
def replaceCIAux : Nat → List Char → List Char → List Char → List Char
  | _, s, [], _ => s
  | 0, s, _ :: _, _ => s
  | fuel + 1, s, p :: ps, rep =>
    match s with
    | [] => []
    | c :: cs =>
      match stripCI (p :: ps) (c :: cs) with
      | some rest => rep ++ replaceCIAux fuel rest (p :: ps) rep
      | none => c :: replaceCIAux fuel cs (p :: ps) rep

/-- Replace every case-insensitive occurrence of `pat` in `s` by `rep`,
scanning left to right (the semantics of a `gi` regex over a literal
pattern). An empty pattern leaves the string unchanged. -/
def replaceCI (s pat rep : List Char) : List Char :=
  replaceCIAux s.length s pat rep

/-- Render a campaign template for one contact: substitute the
display-name placeholders, then every custom-field placeholder, exactly as
the start route does.  An absent name substitutes the empty string
(`contact.name || ''`). -/
def renderTemplate (template : String) (name : Option String)
    (customFields : List (String × String)) : String :=
  let nm := (name.getD "").data
  let b1 := replaceCI template.data "\x7bnome\x7d".data nm
  let b2 := replaceCI b1 "\x7bname\x7d".data nm
  let bf := customFields.foldl
    (fun acc kv => replaceCI acc ('\x7b' :: kv.1.data ++ ['\x7d']) kv.2.data) b2
  String.mk bf

/-! ## `sendImageMessage` (drivers file, lines 601-637)

One image job execution observes: whether `downloadToTemp` produced a file,
the driver's `sendImage` result, and (when taken) the driver's fallback
`sendText` result.  The driver calls actually performed are logged so the
final content (text-only or with media) is visible. -/

/-- Driver send calls made during one image job. -/
inductive DriverCall
  | sendTextCall (text : String)
  | sendImageCall (localPath : String) (caption : Option String)
deriving DecidableEq, Repr

/-- The `send_image` job payload fields used by `sendImageMessage`. -/
structure SendImageJob where
  phoneE164 : String
  mediaUrl : String
  bodyText : Option String
  fallbackText : String
deriving DecidableEq, Repr

/-- Environment of one `sendImageMessage` execution. -/
structure ImageJobEnv where
  downloadOk : Bool
  tempPath : String
  imageResult : SendResult
  textFallbackResult : SendResult
deriving DecidableEq, Repr

/-- `sendImageMessage`: download failure ⇒ `sendText(fallbackText)` with
`fallbackUsed: true`; download success ⇒ `sendImage`, and a non-success
driver result ⇒ `sendText(fallbackText)` with `fallbackUsed: true`
(spreading the fallback result).  Returns the job result together with the
driver calls performed. -/
def sendImageMessage (data : SendImageJob) (env : ImageJobEnv) :
    SendResult × List DriverCall :=
  if !env.downloadOk then
    ({ env.textFallbackResult with fallbackUsed := true },
     [DriverCall.sendTextCall data.fallbackText])
  else if !env.imageResult.success then
    ({ env.textFallbackResult with fallbackUsed := true },
     [DriverCall.sendImageCall env.tempPath data.bodyText,
      DriverCall.sendTextCall data.fallbackText])
  else
    (env.imageResult,
     [DriverCall.sendImageCall env.tempPath data.bodyText])

/-! ## `handleSendMessage` (drivers file, lines 459-586)

One job execution is modelled as a function of the persisted message row,
its campaign row, the persisted session row status, whether the registry
already holds a live client for the tenant, and the environment (probe
state of a freshly launched client, health-check result, driver send
result, the `NOW()` timestamp in seconds).  The function returns the new
rows plus whether the handler threw (re-raising to pg-boss). -/

/-- The persisted `messages` row fields the pipeline touches, plus the
queue-side bookkeeping for this message's job (`jobPending`: a pg-boss job
for it is pending; `queueRetriesLeft`: remaining pg-boss retries,
`retryLimit: 3`). -/
structure Msg where
  status : MsgStatus
  attempts : Nat
  maxAttempts : Nat
  fallbackUsed : Bool
  error : Option String
  errorScreenshotPath : Option String
  nextRetryAt : Option Nat
  sentAt : Option Nat
  jobPending : Bool
  queueRetriesLeft : Nat
deriving DecidableEq, Repr

/-- The persisted `campaigns` row fields the pipeline touches. -/
structure Camp where
  status : CampStatus
  totalRecipients : Nat
  sentCount : Nat
  failedCount : Nat
deriving DecidableEq, Repr

/-- Environment of one `handleSendMessage` execution. -/
structure ExecEnv where
  probeState : DriverState
  healthy : Bool
  result : SendResult
  now : Nat
deriving DecidableEq, Repr

/-- Output of one `handleSendMessage` execution (before queue-side
bookkeeping): new message row, new campaign row, new session row status,
whether the registry now holds the client, and whether the handler threw. -/
structure ExecOut where
  msg : Msg
  camp : Camp
  sess : SessStatus
  reg : Bool
  threw : Bool
deriving DecidableEq, Repr

/-- `checkCampaignCompletion` (lines 687-708): when the campaign row is
`running` and `sent_count + failed_count >= total_recipients`, set it
`completed`. -/
def checkCampaignCompletion (c : Camp) : Camp :=
  if c.status = CampStatus.running ∧
     c.sentCount + c.failedCount ≥ c.totalRecipients then
    { c with status := CampStatus.completed }
  else c

/-- The `catch` block of `handleSendMessage` (lines 567-585): set the
message `failed` with the error text, increment the campaign
`failed_count`, and re-throw (no completion check runs). -/
def catchHandler (m : Msg) (c : Camp) (sess : SessStatus) (reg : Bool)
    (err : String) : ExecOut :=
  { msg := { m with status := MsgStatus.failed, error := some err },
    camp := { c with failedCount := c.failedCount + 1 },
    sess := sess, reg := reg, threw := true }

/-- One `handleSendMessage` execution.  Steps, in source order:
mark `sending` and increment `attempts`; acquire the tenant client
(a fresh client whose probe is not connected throws); health-check
(unhealthy persists the session row `needs-qr` and throws); send;
on success persist `sent`/`sent_at`/`fallback_used` and increment
`sent_count`; on failure either requeue with
`next_retry_at = NOW() + 2^attempts * 60` seconds (when
`attempts < max_attempts`) or persist `failed` and increment
`failed_count`; finally run `checkCampaignCompletion`. -/
def execSend (m : Msg) (c : Camp) (sess : SessStatus) (reg : Bool)
    (env : ExecEnv) : ExecOut :=
  let m1 := { m with status := MsgStatus.sending, attempts := m.attempts + 1 }
  if ¬ reg ∧ env.probeState ≠ DriverState.connected then
    catchHandler m1 c sess reg "Session not connected - please scan QR code"
  else if ¬ env.healthy then
    catchHandler m1 c SessStatus.needsQr true "Session disconnected - needs QR scan"
  else if env.result.success then
    let m2 := { m1 with
      status := MsgStatus.sent,
      sentAt := some env.now,
      fallbackUsed := env.result.fallbackUsed }
    let c2 := { c with sentCount := c.sentCount + 1 }
    { msg := m2, camp := checkCampaignCompletion c2, sess := sess,
      reg := true, threw := false }
  else if m1.attempts < m1.maxAttempts then
    let m2 := { m1 with
      status := MsgStatus.queued,
      nextRetryAt := some (env.now + 2 ^ m1.attempts * 60),
      error := env.result.error,
      errorScreenshotPath := env.result.screenshotPath }
    { msg := m2, camp := checkCampaignCompletion c, sess := sess,
      reg := true, threw := false }
  else
    let m2 := { m1 with
      status := MsgStatus.failed,
      error := env.result.error,
      errorScreenshotPath := env.result.screenshotPath }
    let c2 := { c with failedCount := c.failedCount + 1 }
    { msg := m2, camp := checkCampaignCompletion c2, sess := sess,
      reg := true, threw := false }

/-! ## Campaign-level transition system

A system state is the campaign row, its message rows, the session row and
the registry flag.  A trace interleaves send-job executions (enabled while
a queue job for the message is pending) with the pause route.  Queue-side
bookkeeping after an execution: a handler that threw is retried by pg-boss
while retries remain; a handler that completed leaves a pending retry job
exactly when it left the message `queued` (`next_retry_at` scheduled).
Pausing cancels `queued` message rows but does not remove pending queue
jobs. -/

/-- Whole-system state for one campaign. -/
structure SysState where
  camp : Camp
  msgs : List Msg
  sess : SessStatus
  reg : Bool
deriving DecidableEq, Repr

/-- A trace step: execute the pending send job of message `i` under
environment `env`, or hit the pause route. -/
inductive Step
  | exec (i : Nat) (env : ExecEnv)
  | pause
deriving DecidableEq, Repr

/-- Queue bookkeeping folded over an execution of message `m` whose
handler produced `o`: a handler that threw is retried by pg-boss while
retries remain; a handler that completed leaves a pending retry job exactly
when it left the message `queued` (`next_retry_at` scheduled). -/
def msgAfter (m : Msg) (o : ExecOut) : Msg :=
  { o.msg with
    jobPending := if o.threw then decide (0 < m.queueRetriesLeft)
                  else decide (o.msg.status = MsgStatus.queued),
    queueRetriesLeft := if o.threw then m.queueRetriesLeft - 1
                        else m.queueRetriesLeft }

/-- The status-conditioned pause update on one message row:
`UPDATE messages SET status = 'cancelled' WHERE ... status = 'queued'`. -/
def cancelQueued (m : Msg) : Msg :=
  if m.status = MsgStatus.queued then { m with status := MsgStatus.cancelled }
  else m

/-- The pause route (`POST /campaigns/:id/pause`, part_004 lines 341-365):
only a `running` campaign is set `paused`; then every `queued` message of
the campaign is set `cancelled`.  Pending queue jobs are untouched. -/
def pauseCampaign (s : SysState) : Option SysState :=
  if s.camp.status = CampStatus.running then
    some { s with
      camp := { s.camp with status := CampStatus.paused },
      msgs := s.msgs.map cancelQueued }
  else none

/-- Execute the pending send job of message `i`; `none` when message `i`
does not exist or has no pending queue job. -/
def applyExec (s : SysState) (i : Nat) (env : ExecEnv) : Option SysState :=
  match s.msgs.get? i with
  | none => none
  | some m =>
      if m.jobPending then
        let o := execSend m s.camp s.sess s.reg env
        some { camp := o.camp, msgs := s.msgs.set i (msgAfter m o),
               sess := o.sess, reg := o.reg }
      else none

/-- Apply one step; `none` when the step is not enabled. -/
def applyStep (s : SysState) : Step → Option SysState
  | Step.exec i env => applyExec s i env
  | Step.pause => pauseCampaign s

/-- Run a trace of steps. -/
def runTrace (s : SysState) : List Step → Option SysState
  | [] => some s
  | st :: rest => (applyStep s st).bind fun s' => runTrace s' rest

/-- Execute the pending send job of message `i`, refusing executions in
which the handler throws. -/
def applyExecNoExn (s : SysState) (i : Nat) (env : ExecEnv) : Option SysState :=
  match s.msgs.get? i with
  | none => none
  | some m =>
      if m.jobPending then
        let o := execSend m s.camp s.sess s.reg env
        if o.threw then none
        else some { camp := o.camp, msgs := s.msgs.set i (msgAfter m o),
                    sess := o.sess, reg := o.reg }
      else none

/-- Apply one step, refusing traces in which a handler throws. -/
def applyStepNoExn (s : SysState) : Step → Option SysState
  | Step.exec i env => applyExecNoExn s i env
  | Step.pause => pauseCampaign s

/-- Run an exception-free trace. -/
def runTraceNoExn (s : SysState) : List Step → Option SysState
  | [] => some s
  | st :: rest => (applyStepNoExn s st).bind fun s' => runTraceNoExn s' rest

/-- A freshly created message row (schema defaults: `status 'queued'`,
`attempts 0`, `max_attempts 3`) with its send job enqueued
(`retryLimit: 3`). -/
def initMsg : Msg :=
  { status := MsgStatus.queued, attempts := 0, maxAttempts := 3,
    fallbackUsed := false, error := none, errorScreenshotPath := none,
    nextRetryAt := none, sentAt := none,
    jobPending := true, queueRetriesLeft := 3 }

/-- System state right after a campaign with `n` recipients started:
campaign `running` with `total_recipients = n` and zero counters, `n`
fresh queued messages, session row `connected`, no live client in this
worker's registry yet. -/
def initState (n : Nat) : SysState :=
  { camp := { status := CampStatus.running, totalRecipients := n,
              sentCount := 0, failedCount := 0 },
    msgs := List.replicate n initMsg,
    sess := SessStatus.connected,
    reg := false }

/-! ## Campaign start (`POST /campaigns/:id/start`, part_004 lines 206-336)

The route validates status and session, resolves eligible contacts,
persists `running`/`total_recipients`, and per contact renders the
template, inserts a message row and enqueues one `send-message` job whose
`startAfter` delay is `Math.floor(Math.random() * (max - min) + min)`.
`Math.random()` is modelled as a rational in `[0, 1)`, one per contact. -/

/-- Campaign type (`text` or `image`). -/
inductive CampaignType
  | text | image
deriving DecidableEq, Repr

/-- A `contacts` row as read by the start route. -/
structure Contact where
  phoneE164 : String
  name : Option String
  customFields : List (String × String)
  optedOut : Bool
  tags : List String
deriving DecidableEq, Repr

/-- The `campaigns` row fields read by the start route. -/
structure CampaignRow where
  status : CampStatus
  campType : CampaignType
  templateText : Option String
  mediaUrl : Option String
  targetAll : Bool
  targetTags : List String
  throttleMinDelayMs : Int
  throttleMaxDelayMs : Int
  totalRecipients : Nat
deriving DecidableEq, Repr

/-- Errors the start route can answer with. -/
inductive StartError
  | badStatus | sessionNotConnected | noContacts
deriving DecidableEq, Repr

/-- A message row inserted by the start route. -/
structure NewMessage where
  phoneE164 : String
  bodyText : String
  mediaUrl : Option String
deriving DecidableEq, Repr

/-- A `send-message` job enqueued by the start route. -/
structure JobSpec where
  jobType : CampaignType
  phoneE164 : String
  bodyText : Option String
  mediaUrl : Option String
  fallbackText : Option String
  startAfter : Int
deriving DecidableEq, Repr

/-- The contact query: `opted_out = FALSE`, and unless `target_all` (or the
tag list is empty) the contact's tags must overlap `target_tags`
(`tags && $2`). -/
def eligibleContacts (camp : CampaignRow) (allContacts : List Contact) :
    List Contact :=
  allContacts.filter fun ct =>
    !ct.optedOut &&
      (camp.targetAll || camp.targetTags.isEmpty ||
        ct.tags.any fun t => camp.targetTags.contains t)

/-- `Math.floor(Math.random() * (max - min) + min)` for one sample
`r ∈ [0,1)`. -/
def throttleDelay (minD maxD : Int) (r : ℚ) : Int :=
  ⌊r * ((maxD : ℚ) - (minD : ℚ)) + (minD : ℚ)⌋

/-- The per-contact body of the start loop: rendered message row and the
enqueued job (image jobs carry the media url and the pre-rendered fallback
text `bodyText + "\n\nVeja a imagem: " + mediaUrl`, trimmed). -/
def startJobFor (camp : CampaignRow) (ct : Contact) (r : ℚ) :
    NewMessage × JobSpec :=
  let bodyText := renderTemplate (camp.templateText.getD "") ct.name ct.customFields
  let mediaUrl := camp.mediaUrl
  let msg : NewMessage :=
    { phoneE164 := ct.phoneE164, bodyText := bodyText, mediaUrl := mediaUrl }
  let delay := throttleDelay camp.throttleMinDelayMs camp.throttleMaxDelayMs r
  let job : JobSpec :=
    match camp.campType with
    | CampaignType.image =>
        { jobType := CampaignType.image, phoneE164 := ct.phoneE164,
          bodyText := if bodyText = "" then none else some bodyText,
          mediaUrl := mediaUrl,
          fallbackText := some ((bodyText ++ "\n\nVeja a imagem: " ++ mediaUrl.getD "").trim),
          startAfter := delay }
    | CampaignType.text =>
        { jobType := CampaignType.text, phoneE164 := ct.phoneE164,
          bodyText := some bodyText, mediaUrl := none,
          fallbackText := none, startAfter := delay }
  (msg, job)

/-- The start route: reject unless status ∈ {draft, scheduled, paused};
reject unless the session row is `connected`; reject when no contact
matches; otherwise persist `running` with `total_recipients` = eligible
count and create one message row and one queue job per eligible contact
(`randoms` supplies one `Math.random()` sample per contact). -/
def startCampaign (camp : CampaignRow) (sess : SessStatus)
    (allContacts : List Contact) (randoms : List ℚ) :
    Except StartError (CampaignRow × List NewMessage × List JobSpec) :=
  if ¬ (camp.status = CampStatus.draft ∨ camp.status = CampStatus.scheduled ∨
        camp.status = CampStatus.paused) then
    Except.error StartError.badStatus
  else if sess ≠ SessStatus.connected then
    Except.error StartError.sessionNotConnected
  else
    let contacts := eligibleContacts camp allContacts
    if contacts.isEmpty then Except.error StartError.noContacts
    else
      let camp' := { camp with
        status := CampStatus.running,
        totalRecipients := contacts.length }
      let rows := (contacts.zip randoms).map fun p => startJobFor camp p.1 p.2
      Except.ok (camp', rows.map Prod.fst, rows.map Prod.snd)

/-! ## Invariants of the campaign-level transition system -/

/-- Number of messages currently in status `st`. -/
def countStatus (st : MsgStatus) (ms : List Msg) : Nat :=
  (ms.filter fun m => decide (m.status = st)).length

/-- Per-message invariant of exception-free dispatch: a `queued` or
`cancelled` message has spare attempts; a terminal `sent`/`failed` message
respects the attempts bound and has no pending queue job; `sending` and
`delivered` never persist between executions. -/
def InvMsg (m : Msg) : Prop :=
  ((m.status = MsgStatus.queued ∨ m.status = MsgStatus.cancelled) →
    m.attempts < m.maxAttempts) ∧
  ((m.status = MsgStatus.sent ∨ m.status = MsgStatus.failed) →
    m.attempts ≤ m.maxAttempts ∧ m.jobPending = false) ∧
  m.status ≠ MsgStatus.sending ∧ m.status ≠ MsgStatus.delivered

/-- Counter coherence: the campaign counters agree with the message rows. -/
structure GoodState (s : SysState) : Prop where
  len : s.camp.totalRecipients = s.msgs.length
  sentEq : s.camp.sentCount = countStatus MsgStatus.sent s.msgs
  failedEq : s.camp.failedCount = countStatus MsgStatus.failed s.msgs
  msgInv : ∀ m ∈ s.msgs, InvMsg m

/-- Campaign status coherence under pure dispatch (no pause): the status is
`running` or `completed`, and `completed` holds exactly when the counters
have reached the total. -/
structure CampGood (s : SysState) : Prop where
  runOrComp : s.camp.status = CampStatus.running ∨
    s.camp.status = CampStatus.completed
  compIff : s.camp.status = CampStatus.completed ↔
    s.camp.sentCount + s.camp.failedCount = s.camp.totalRecipients

/-- Traces consisting only of send-job executions (no pause). -/
def execOnly (tr : List Step) : Prop :=
  ∀ st ∈ tr, st ≠ Step.pause

/-- The attempts counter of message `i` (0 when out of range). -/
def msgAttempts (s : SysState) (i : Nat) : Nat :=
  ((s.msgs.get? i).map Msg.attempts).getD 0

/-! ## Concrete fixtures for witnesses and counterexamples -/

/-- A campaign row mid-dispatch. -/
def camp0 : Camp :=
  { status := CampStatus.running, totalRecipients := 5,
    sentCount := 1, failedCount := 0 }

/-- Environment: healthy connected session, driver reports a send failure
with an error and a screenshot. -/
def envFail : ExecEnv :=
  { probeState := DriverState.connected, healthy := true,
    result := { success := false, error := some "Message send verification failed",
                screenshotPath := some "/tmp/send_text_err.png", fallbackUsed := false },
    now := 100 }

/-- Environment: healthy connected session, driver reports success. -/
def envOk : ExecEnv :=
  { probeState := DriverState.connected, healthy := true,
    result := { success := true, error := none,
                screenshotPath := none, fallbackUsed := false },
    now := 100 }

/-- Environment: no client in the registry and the fresh client's probe
reports needs-qr. -/
def envProbeQr : ExecEnv :=
  { probeState := DriverState.needsQr, healthy := true,
    result := { success := true, error := none,
                screenshotPath := none, fallbackUsed := false },
    now := 0 }

/-- Environment: client present but the health check fails. -/
def envUnhealthy : ExecEnv :=
  { probeState := DriverState.connected, healthy := false,
    result := { success := true, error := none,
                screenshotPath := none, fallbackUsed := false },
    now := 0 }

/-- A startable text campaign with throttle bounds [3000 ms, 8000 ms]. -/
def wCamp : CampaignRow :=
  { status := CampStatus.draft, campType := CampaignType.text,
    templateText := some "Oi \x7bnome\x7d", mediaUrl := none,
    targetAll := true, targetTags := [],
    throttleMinDelayMs := 3000, throttleMaxDelayMs := 8000,
    totalRecipients := 0 }

/-- Two eligible contacts. -/
def wContacts : List Contact :=
  [{ phoneE164 := "+5511900000001", name := some "Ana", customFields := [],
     optedOut := false, tags := [] },
   { phoneE164 := "+5511900000002", name := none, customFields := [("cidade", "SP")],
     optedOut := false, tags := ["vip"] }]


/-- Trace: four consecutive send-job executions on message 0 that each hit
the exception path (fresh client probing `needs-qr`): the original job plus
the three pg-boss retries. -/
def exnTrace4 : List Step :=
  [Step.exec 0 envProbeQr, Step.exec 0 envProbeQr,
   Step.exec 0 envProbeQr, Step.exec 0 envProbeQr]

/-- Trace: three executions whose send attempt fails on the normal
(result-failure) path. -/
def failTrace3 : List Step :=
  [Step.exec 0 envFail, Step.exec 0 envFail, Step.exec 0 envFail]

/-- State after `failTrace3` on a one-message campaign. -/
def c1Final : SysState :=
  (runTraceNoExn (initState 1) failTrace3).getD (initState 1)

/-- The message row of `c1Final`. -/
def c1Msg : Msg := (c1Final.msgs.get? 0).getD initMsg

/-- Trace: one successful execution on a one-message campaign. -/
def c2Trace : List Step := [Step.exec 0 envOk]

/-- State after `c2Trace` on a one-message campaign. -/
def c2Final : SysState :=
  (runTraceNoExn (initState 1) c2Trace).getD (initState 1)

/-- State of a two-message campaign after message 0 was sent. -/
def c3Mid : SysState :=
  (runTraceNoExn (initState 2) [Step.exec 0 envOk]).getD (initState 2)

/-- The sent message row of `c3Mid`. -/
def c3Msg : Msg := (c3Mid.msgs.get? 0).getD initMsg

/-- Trace: pause the campaign, then the still-pending job of message 1
fires and its send attempt fails. -/
def c3Trace2 : List Step := [Step.pause, Step.exec 1 envFail]

/-- State after `c3Trace2` from `c3Mid`. -/
def c3Final : SysState := (runTraceNoExn c3Mid c3Trace2).getD c3Mid

/-! ## Helper lemmas -/

/-- A successful case-insensitive prefix match never lengthens the
remainder, so `replaceCIAux` with fuel `s.length` always has enough fuel. -/
theorem stripCI_length {pat s r : List Char} (h : stripCI pat s = some r) :
    r.length ≤ s.length := by
  induction pat generalizing s r with
  | nil => simp [stripCI] at h; simp [h]
  | cons p ps ih =>
    cases s with
    | nil => simp [stripCI] at h
    | cons c cs =>
      simp only [stripCI] at h
      split at h
      · exact le_trans (ih h) (Nat.le_succ _)
      · exact absurd h (by simp)

/-! ## C10 — optimistic send verification -/

/-- C10: whenever `verifyMessageSent` runs with the page available, no
exception, and no error indicator observed, it returns `true` — and the
returned value does not depend on whether an explicit sent-status indicator
was found, so a send never fails verification solely for lack of a
positive sent confirmation. -/
theorem C10_theorem (env : VerifyEnv)
    (hp : env.pageAvailable = true) (ht : env.threw = false)
    (he : env.hasErrorIndicator = false) :
    verifyMessageSent env = true ∧
      (∀ b : Bool, verifyMessageSent { env with hasSentIndicator := b } =
        verifyMessageSent env) := by
  constructor
  · simp [verifyMessageSent, hp, ht, he]
  · intro b
    simp [verifyMessageSent, hp, ht, he]

theorem C10_witness :
    verifyMessageSent
        { pageAvailable := true, threw := false,
          hasErrorIndicator := false, hasSentIndicator := false } = true ∧
      ∀ b : Bool, verifyMessageSent
        { pageAvailable := true, threw := false,
          hasErrorIndicator := false, hasSentIndicator := b } =
        verifyMessageSent
        { pageAvailable := true, threw := false,
          hasErrorIndicator := false, hasSentIndicator := false } :=
  C10_theorem
    { pageAvailable := true, threw := false,
      hasErrorIndicator := false, hasSentIndicator := false }
    rfl rfl rfl

/-! ## C9 — handle re-acquisition -/

/-- C9 counterexample: `handleSessionConnect` re-acquiring the live handle
`5` for a tenant returns the same handle but performs `launch()` and a
`detectState()` probe on it again, so the acquisition is not free of
re-initialization. -/
theorem C9_counterexample :
    connectAcquire (some 5) 7 =
      (5, some 5, [SessionAction.launch 5, SessionAction.detectState 5]) ∧
    (connectAcquire (some 5) 7).2.2 ≠ [] := by
  constructor
  · rfl
  · decide

/-- C9 amended: re-acquiring a handle for a tenant with a live handle
returns that same handle in both handlers; the dispatch pipeline
(`handleSendMessage`) performs no launch and no state probe on it, but the
session-connect handler re-runs `launch()` and `detectState()` on the
existing handle. -/
theorem C9_theorem (h fresh : Nat) (probe : DriverState) :
    sendAcquire (some h) fresh probe = some (h, some h, []) ∧
      (connectAcquire (some h) fresh).1 = h ∧
      (connectAcquire (some h) fresh).2.2 =
        [SessionAction.launch h, SessionAction.detectState h] := by
  refine ⟨rfl, rfl, rfl⟩

theorem C9_witness :
    sendAcquire (some 5) 7 DriverState.connected = some (5, some 5, []) ∧
      (connectAcquire (some 5) 7).1 = 5 ∧
      (connectAcquire (some 5) 7).2.2 =
        [SessionAction.launch 5, SessionAction.detectState 5] :=
  C9_theorem 5 7 DriverState.connected

/-! ## C5 — image job fallback -/

/-- C5: in an image send-message job, a failed media fetch makes the
pipeline send the pre-rendered fallback text immediately (the only driver
call is `sendText(fallbackText)`, so no media is in the final content) and
report `fallbackUsed = true`; a successful fetch followed by a
driver-reported image-send failure makes it take the same text-fallback
path (the image attempt is followed by `sendText(fallbackText)`, the final
call), again with `fallbackUsed = true`. -/
theorem C5_theorem (data : SendImageJob) (env : ImageJobEnv) :
    (env.downloadOk = false →
      (sendImageMessage data env).1.fallbackUsed = true ∧
      (sendImageMessage data env).2 = [DriverCall.sendTextCall data.fallbackText]) ∧
    (env.downloadOk = true → env.imageResult.success = false →
      (sendImageMessage data env).1.fallbackUsed = true ∧
      (sendImageMessage data env).2 =
        [DriverCall.sendImageCall env.tempPath data.bodyText,
         DriverCall.sendTextCall data.fallbackText]) := by
  constructor
  · intro hdl
    constructor <;> simp [sendImageMessage, hdl]
  · intro hdl himg
    constructor <;> simp [sendImageMessage, hdl, himg]

theorem C5_witness :
    ((sendImageMessage
        { phoneE164 := "+5511999", mediaUrl := "http://x/img.jpg",
          bodyText := some "oi", fallbackText := "oi\n\nVeja a imagem: http://x/img.jpg" }
        { downloadOk := false, tempPath := "/tmp/m.jpg",
          imageResult := { success := true, error := none,
                           screenshotPath := none, fallbackUsed := false },
          textFallbackResult := { success := true, error := none,
                                  screenshotPath := none, fallbackUsed := false } }).1.fallbackUsed
      = true ∧
     (sendImageMessage
        { phoneE164 := "+5511999", mediaUrl := "http://x/img.jpg",
          bodyText := some "oi", fallbackText := "oi\n\nVeja a imagem: http://x/img.jpg" }
        { downloadOk := false, tempPath := "/tmp/m.jpg",
          imageResult := { success := true, error := none,
                           screenshotPath := none, fallbackUsed := false },
          textFallbackResult := { success := true, error := none,
                                  screenshotPath := none, fallbackUsed := false } }).2
      = [DriverCall.sendTextCall "oi\n\nVeja a imagem: http://x/img.jpg"]) :=
  (C5_theorem
    { phoneE164 := "+5511999", mediaUrl := "http://x/img.jpg",
      bodyText := some "oi", fallbackText := "oi\n\nVeja a imagem: http://x/img.jpg" }
    { downloadOk := false, tempPath := "/tmp/m.jpg",
      imageResult := { success := true, error := none,
                       screenshotPath := none, fallbackUsed := false },
      textFallbackResult := { success := true, error := none,
                              screenshotPath := none, fallbackUsed := false } }).1
    rfl

/-! ## C4 — failure handling: backoff requeue or terminal failure -/

/-- C4: when a send attempt fails (non-exception path: handle acquired and
healthy, driver result unsuccessful), the execution requeues the message
with its error and evidence reference stored and
`next_retry_at = NOW() + 2^attempts * 60` seconds (base 60 s doubling with
each attempt, `attempts` being the already-incremented counter) whenever
`attempts < max_attempts`; otherwise it persists `failed` and increments
the campaign's `failed_count`. -/
theorem C4_theorem (m : Msg) (c : Camp) (sess : SessStatus) (reg : Bool)
    (env : ExecEnv)
    (hacq : reg = true ∨ env.probeState = DriverState.connected)
    (hh : env.healthy = true)
    (hf : env.result.success = false) :
    (m.attempts + 1 < m.maxAttempts →
      (execSend m c sess reg env).msg =
        { m with status := MsgStatus.queued, attempts := m.attempts + 1,
                 nextRetryAt := some (env.now + 2 ^ (m.attempts + 1) * 60),
                 error := env.result.error,
                 errorScreenshotPath := env.result.screenshotPath } ∧
      (execSend m c sess reg env).camp = checkCampaignCompletion c ∧
      (execSend m c sess reg env).threw = false) ∧
    (¬ m.attempts + 1 < m.maxAttempts →
      (execSend m c sess reg env).msg =
        { m with status := MsgStatus.failed, attempts := m.attempts + 1,
                 error := env.result.error,
                 errorScreenshotPath := env.result.screenshotPath } ∧
      (execSend m c sess reg env).camp =
        checkCampaignCompletion { c with failedCount := c.failedCount + 1 } ∧
      (execSend m c sess reg env).threw = false) := by
  have h1 : ¬ (reg = false ∧ ¬ env.probeState = DriverState.connected) := by
    rcases hacq with h | h <;> simp [h]
  constructor
  · intro hlt
    refine ⟨?_, ?_, ?_⟩ <;> simp [execSend, h1, hh, hf, hlt]
  · intro hge
    refine ⟨?_, ?_, ?_⟩ <;> simp [execSend, h1, hh, hf, hge]

theorem C4_witness :
    (execSend initMsg camp0 SessStatus.connected true envFail).msg.status =
      MsgStatus.queued ∧
    (execSend initMsg camp0 SessStatus.connected true envFail).msg.nextRetryAt =
      some 220 ∧
    (execSend initMsg camp0 SessStatus.connected true envFail).msg.error =
      some "Message send verification failed" := by
  have h := (C4_theorem initMsg camp0 SessStatus.connected true envFail
    (Or.inl rfl) rfl rfl).1 (by decide)
  rw [h.1]
  exact ⟨rfl, rfl, rfl⟩

/-! ## C6 — not-connected handle is not treated as recoverable -/

/-- C6 counterexample: a send-job execution with no client in the registry
whose freshly launched client probes `needs-qr` throws, and the catch-all
marks the message terminally `failed` (incrementing the campaign
`failed_count`) while leaving the session row untouched (still
`connected`, not `needs-qr`). -/
theorem C6_counterexample :
    (execSend initMsg camp0 SessStatus.connected false envProbeQr).msg.status =
      MsgStatus.failed ∧
    (execSend initMsg camp0 SessStatus.connected false envProbeQr).sess =
      SessStatus.connected ∧
    (execSend initMsg camp0 SessStatus.connected false envProbeQr).camp.failedCount =
      camp0.failedCount + 1 ∧
    (execSend initMsg camp0 SessStatus.connected false envProbeQr).threw = true :=
  ⟨rfl, rfl, rfl, rfl⟩

/-- C6 amended: a not-connected freshly probed handle makes the execution
throw and the catch-all marks the message `failed` with the
"Session not connected" error, leaving the session row unchanged; the
session row is persisted `needs-qr` only in the separate branch where an
acquired handle fails its health check (which also throws and marks the
message `failed`). -/
theorem C6_theorem (m : Msg) (c : Camp) (sess : SessStatus) (reg : Bool)
    (env : ExecEnv) :
    (reg = false → env.probeState ≠ DriverState.connected →
      (execSend m c sess reg env).threw = true ∧
      (execSend m c sess reg env).msg.status = MsgStatus.failed ∧
      (execSend m c sess reg env).msg.error =
        some "Session not connected - please scan QR code" ∧
      (execSend m c sess reg env).sess = sess ∧
      (execSend m c sess reg env).camp.failedCount = c.failedCount + 1) ∧
    ((reg = true ∨ env.probeState = DriverState.connected) →
      env.healthy = false →
      (execSend m c sess reg env).threw = true ∧
      (execSend m c sess reg env).msg.status = MsgStatus.failed ∧
      (execSend m c sess reg env).sess = SessStatus.needsQr ∧
      (execSend m c sess reg env).camp.failedCount = c.failedCount + 1) := by
  constructor
  · intro hreg hprobe
    refine ⟨?_, ?_, ?_, ?_, ?_⟩ <;>
      simp [execSend, catchHandler, hreg, hprobe]
  · intro hacq hh
    have h1 : ¬ (reg = false ∧ ¬ env.probeState = DriverState.connected) := by
      rcases hacq with h | h <;> simp [h]
    refine ⟨?_, ?_, ?_, ?_⟩ <;>
      simp [execSend, catchHandler, h1, hh]

theorem C6_witness :
    (execSend initMsg camp0 SessStatus.connected true envUnhealthy).threw = true ∧
    (execSend initMsg camp0 SessStatus.connected true envUnhealthy).msg.status =
      MsgStatus.failed ∧
    (execSend initMsg camp0 SessStatus.connected true envUnhealthy).sess =
      SessStatus.needsQr ∧
    (execSend initMsg camp0 SessStatus.connected true envUnhealthy).camp.failedCount =
      camp0.failedCount + 1 :=
  (C6_theorem initMsg camp0 SessStatus.connected true envUnhealthy).2
    (Or.inl rfl) rfl

/-! ## C7 — campaign start: jobs, counts and throttle delays -/

theorem throttleDelay_bounds (minD maxD : Int) (r : ℚ)
    (h0 : 0 ≤ r) (h1 : r < 1) (hmm : minD ≤ maxD) :
    minD ≤ throttleDelay minD maxD r ∧ throttleDelay minD maxD r ≤ maxD := by
  unfold throttleDelay
  constructor
  · rw [Int.le_floor]
    have hd : (0 : ℚ) ≤ (maxD : ℚ) - (minD : ℚ) := by
      have : (minD : ℚ) ≤ (maxD : ℚ) := by exact_mod_cast hmm
      linarith
    nlinarith
  · have hv : r * ((maxD : ℚ) - (minD : ℚ)) + (minD : ℚ) ≤ (maxD : ℚ) := by
      have hd : (0 : ℚ) ≤ (maxD : ℚ) - (minD : ℚ) := by
        have : (minD : ℚ) ≤ (maxD : ℚ) := by exact_mod_cast hmm
        linarith
      nlinarith
    calc ⌊r * ((maxD : ℚ) - (minD : ℚ)) + (minD : ℚ)⌋
        ≤ ⌊(maxD : ℚ)⌋ := Int.floor_le_floor hv
      _ = maxD := Int.floor_intCast maxD

/-- C7 counterexample: with throttle bounds [3000 ms, 8000 ms], no value of
`Math.random()` (a sample `r ∈ [0,1)`) can yield a start-delay of 8000 ms
(`Math.floor(r * (8000 - 3000) + 3000)` never reaches the upper bound), so
the start-delay is not sampled from the closed interval [min, max]. -/
theorem C7_counterexample :
    ¬ ∃ r : ℚ, 0 ≤ r ∧ r < 1 ∧ throttleDelay 3000 8000 r = 8000 := by
  rintro ⟨r, h0, h1, he⟩
  have hv : r * ((8000 : ℚ) - (3000 : ℚ)) + (3000 : ℚ) < ((8000 : Int) : ℚ) := by
    push_cast
    nlinarith
  have hlt : throttleDelay 3000 8000 r < 8000 := by
    unfold throttleDelay
    exact Int.floor_lt.mpr hv
  omega

/-- C7 amended: starting a campaign in a startable status with a connected
session and a nonempty set of eligible contacts creates exactly one message
row and one queue job per eligible contact, persists `running` with
`total_recipients` equal to the eligible count, and gives every job a
start-delay `⌊r·(max−min)+min⌋` for a sample `r ∈ [0,1)`, which lies in
[min, max] (but never attains max when min < max). -/
theorem C7_theorem (camp : CampaignRow) (sess : SessStatus)
    (allContacts : List Contact) (randoms : List ℚ)
    (hstatus : camp.status = CampStatus.draft ∨
      camp.status = CampStatus.scheduled ∨ camp.status = CampStatus.paused)
    (hsess : sess = SessStatus.connected)
    (hne : (eligibleContacts camp allContacts).isEmpty = false)
    (hlen : randoms.length = (eligibleContacts camp allContacts).length)
    (hr : ∀ r ∈ randoms, 0 ≤ r ∧ r < 1)
    (hmm : camp.throttleMinDelayMs ≤ camp.throttleMaxDelayMs) :
    ∃ camp' msgs jobs,
      startCampaign camp sess allContacts randoms =
        Except.ok (camp', msgs, jobs) ∧
      camp'.status = CampStatus.running ∧
      camp'.totalRecipients = (eligibleContacts camp allContacts).length ∧
      msgs.length = (eligibleContacts camp allContacts).length ∧
      jobs.length = (eligibleContacts camp allContacts).length ∧
      ∀ j ∈ jobs, camp.throttleMinDelayMs ≤ j.startAfter ∧
        j.startAfter ≤ camp.throttleMaxDelayMs := by
  have hstart : startCampaign camp sess allContacts randoms =
      Except.ok
        (({ camp with
            status := CampStatus.running,
            totalRecipients := (eligibleContacts camp allContacts).length } : CampaignRow),
         (((eligibleContacts camp allContacts).zip randoms).map
            fun p => startJobFor camp p.1 p.2).map Prod.fst,
         (((eligibleContacts camp allContacts).zip randoms).map
            fun p => startJobFor camp p.1 p.2).map Prod.snd) := by
    unfold startCampaign
    rw [if_neg (not_not_intro hstatus), if_neg (by simp [hsess]), if_neg (by simp [hne])]
  refine ⟨_, _, _, hstart, ?_, ?_, ?_, ?_, ?_⟩
  · rfl
  · rfl
  · simp [List.length_zip, hlen]
  · simp [List.length_zip, hlen]
  · intro j hj
    simp only [List.map_map] at hj
    simp only [List.mem_map] at hj
    obtain ⟨p, hp, hpj⟩ := hj
    have hrmem : p.2 ∈ randoms := (List.of_mem_zip hp).2
    obtain ⟨h0, h1⟩ := hr p.2 hrmem
    have hb := throttleDelay_bounds camp.throttleMinDelayMs
      camp.throttleMaxDelayMs p.2 h0 h1 hmm
    have hsa : j.startAfter =
        throttleDelay camp.throttleMinDelayMs camp.throttleMaxDelayMs p.2 := by
      rw [← hpj]
      unfold startJobFor
      cases camp.campType <;> rfl
    rw [hsa]
    exact hb

theorem C7_witness :
    ∃ camp' msgs jobs,
      startCampaign wCamp SessStatus.connected wContacts [(0 : ℚ), 1/2] =
        Except.ok (camp', msgs, jobs) ∧
      camp'.status = CampStatus.running ∧
      camp'.totalRecipients = (eligibleContacts wCamp wContacts).length ∧
      msgs.length = (eligibleContacts wCamp wContacts).length ∧
      jobs.length = (eligibleContacts wCamp wContacts).length ∧
      ∀ j ∈ jobs, wCamp.throttleMinDelayMs ≤ j.startAfter ∧
        j.startAfter ≤ wCamp.throttleMaxDelayMs :=
  C7_theorem wCamp SessStatus.connected wContacts [(0 : ℚ), 1/2]
    (Or.inl rfl) rfl (by decide) (by decide)
    (by
      intro r hm
      simp only [List.mem_cons, List.mem_singleton] at hm
      rcases hm with h | h | h
      · subst h; norm_num
      · subst h; norm_num
      · exact absurd h (by simp))
    (by decide)

/-! ## C8 — template placeholder substitution -/

/-- C8 counterexample: rendering the template "Oi \x7bname\x7d \x7bage\x7d"
for a contact named Bob with no custom fields substitutes the name but
leaves the placeholder "\x7bage\x7d" (whose key is absent from
`custom_fields`) verbatim in the rendered body — not the empty string —
so a placeholder can remain unreplaced. -/
theorem C8_counterexample :
    renderTemplate "Oi \x7bname\x7d \x7bage\x7d" (some "Bob") [] =
      "Oi Bob \x7bage\x7d" ∧
    '\x7b' ∈ (renderTemplate "Oi \x7bname\x7d \x7bage\x7d" (some "Bob") []).data := by
  constructor
  · rfl
  · decide

/-- C8 amended: rendering substitutes every display-name placeholder
(\x7bnome\x7d/\x7bname\x7d, case-insensitively, all occurrences) with the
contact's name — the empty string when the name is absent — and every
custom-field placeholder \x7bkey\x7d whose key is present in the contact's
custom fields with that field's value; a placeholder whose key is absent
from the custom fields is left verbatim in the rendered body. -/
theorem C8_theorem :
    renderTemplate "Oi \x7bNOME\x7d, tudo bem? \x7bnome\x7d" (some "Ana") [] =
      "Oi Ana, tudo bem? Ana" ∧
    renderTemplate "Oi \x7bname\x7d" none [] = "Oi " ∧
    renderTemplate "\x7bnome\x7d de \x7bCidade\x7d" (some "Bia") [("cidade", "SP")] =
      "Bia de SP" ∧
    renderTemplate "\x7bnome\x7d: \x7bidade\x7d anos" (some "Cid") [("cidade", "SP")] =
      "Cid: \x7bidade\x7d anos" := by
  refine ⟨?_, ?_, ?_, ?_⟩ <;> rfl

/-! ## Transition-system lemmas for the dispatch invariants -/

theorem countStatus_cons (st : MsgStatus) (a : Msg) (as : List Msg) :
    countStatus st (a :: as) =
      (if a.status = st then 1 else 0) + countStatus st as := by
  by_cases h : a.status = st <;>
    simp [countStatus, List.filter_cons, h, Nat.add_comm]

theorem countStatus_set (st : MsgStatus) {ms : List Msg} {i : Nat} {m : Msg}
    (hm : ms.get? i = some m) (m' : Msg) :
    countStatus st (ms.set i m') + (if m.status = st then 1 else 0) =
      countStatus st ms + (if m'.status = st then 1 else 0) := by
  induction ms generalizing i with
  | nil => simp at hm
  | cons a as ih =>
    cases i with
    | zero =>
      rw [List.get?_cons_zero] at hm
      injection hm with hm
      subst hm
      simp only [List.set_cons_zero, countStatus_cons]
      omega
    | succ n =>
      rw [List.get?_cons_succ] at hm
      have h2 := ih hm
      simp only [List.set_cons_succ, countStatus_cons]
      omega

theorem countStatus_sent_failed_le (ms : List Msg) :
    countStatus MsgStatus.sent ms + countStatus MsgStatus.failed ms ≤
      ms.length := by
  induction ms with
  | nil => simp [countStatus]
  | cons a as ih =>
    rw [countStatus_cons, countStatus_cons]
    simp only [List.length_cons]
    by_cases h1 : a.status = MsgStatus.sent
    · have h2 : ¬ a.status = MsgStatus.failed := by rw [h1]; simp
      rw [if_pos h1, if_neg h2]
      omega
    · by_cases h2 : a.status = MsgStatus.failed
      · rw [if_neg h1, if_pos h2]; omega
      · rw [if_neg h1, if_neg h2]; omega

theorem countStatus_sent_failed_lt {ms : List Msg} {m : Msg} (hm : m ∈ ms)
    (h1 : m.status ≠ MsgStatus.sent) (h2 : m.status ≠ MsgStatus.failed) :
    countStatus MsgStatus.sent ms + countStatus MsgStatus.failed ms <
      ms.length := by
  induction ms with
  | nil => cases hm
  | cons a as ih =>
    rw [countStatus_cons, countStatus_cons]
    simp only [List.length_cons]
    rcases List.mem_cons.mp hm with rfl | hm'
    · rw [if_neg h1, if_neg h2]
      have := countStatus_sent_failed_le as
      omega
    · have hle := ih hm'
      by_cases g1 : a.status = MsgStatus.sent
      · have g2 : ¬ a.status = MsgStatus.failed := by rw [g1]; simp
        rw [if_pos g1, if_neg g2]
        omega
      · by_cases g2 : a.status = MsgStatus.failed
        · rw [if_neg g1, if_pos g2]; omega
        · rw [if_neg g1, if_neg g2]; omega

theorem countStatus_map_cancelQueued (st : MsgStatus)
    (hq : st ≠ MsgStatus.queued) (hc : st ≠ MsgStatus.cancelled)
    (ms : List Msg) :
    countStatus st (ms.map cancelQueued) = countStatus st ms := by
  induction ms with
  | nil => rfl
  | cons a as ih =>
    rw [List.map_cons, countStatus_cons, countStatus_cons, ih]
    congr 1
    unfold cancelQueued
    by_cases hqa : a.status = MsgStatus.queued
    · rw [if_pos hqa, if_neg (by simpa using Ne.symm hc), if_neg (by rw [hqa]; exact Ne.symm hq)]
    · rw [if_neg hqa]

theorem checkCompletion_counts (c : Camp) :
    (checkCampaignCompletion c).sentCount = c.sentCount ∧
    (checkCampaignCompletion c).failedCount = c.failedCount ∧
    (checkCampaignCompletion c).totalRecipients = c.totalRecipients := by
  unfold checkCampaignCompletion
  split <;> exact ⟨rfl, rfl, rfl⟩

theorem checkCompletion_status (c : Camp) :
    (checkCampaignCompletion c).status =
      if c.status = CampStatus.running ∧
          c.sentCount + c.failedCount ≥ c.totalRecipients
      then CampStatus.completed else c.status := by
  unfold checkCampaignCompletion
  split <;> rfl

/-- Branch analysis of one `handleSendMessage` execution: `attempts` is
always incremented; either the handler throws (catch block: message
`failed`, campaign `failed_count` incremented, no completion check) or it
completes with the message `sent`, requeued (`queued`, only when attempts
remain), or `failed`, followed by the completion check. -/
theorem execSend_spec (m : Msg) (c : Camp) (sess : SessStatus) (reg : Bool)
    (env : ExecEnv) :
    (execSend m c sess reg env).msg.attempts = m.attempts + 1 ∧
    (execSend m c sess reg env).msg.maxAttempts = m.maxAttempts ∧
    (execSend m c sess reg env).msg.jobPending = m.jobPending ∧
    (((execSend m c sess reg env).threw = true ∧
        (execSend m c sess reg env).msg.status = MsgStatus.failed ∧
        (execSend m c sess reg env).camp.status = c.status ∧
        (execSend m c sess reg env).camp.sentCount = c.sentCount ∧
        (execSend m c sess reg env).camp.failedCount = c.failedCount + 1 ∧
        (execSend m c sess reg env).camp.totalRecipients = c.totalRecipients) ∨
     ((execSend m c sess reg env).threw = false ∧
       (((execSend m c sess reg env).msg.status = MsgStatus.sent ∧
          (execSend m c sess reg env).camp =
            checkCampaignCompletion { c with sentCount := c.sentCount + 1 }) ∨
        ((execSend m c sess reg env).msg.status = MsgStatus.queued ∧
          m.attempts + 1 < m.maxAttempts ∧
          (execSend m c sess reg env).camp = checkCampaignCompletion c) ∨
        ((execSend m c sess reg env).msg.status = MsgStatus.failed ∧
          (execSend m c sess reg env).camp =
            checkCampaignCompletion { c with failedCount := c.failedCount + 1 })))) := by
  unfold execSend catchHandler
  dsimp only
  split
  · exact ⟨rfl, rfl, rfl, Or.inl ⟨rfl, rfl, rfl, rfl, rfl, rfl⟩⟩
  · split
    · exact ⟨rfl, rfl, rfl, Or.inl ⟨rfl, rfl, rfl, rfl, rfl, rfl⟩⟩
    · split
      · exact ⟨rfl, rfl, rfl, Or.inr ⟨rfl, Or.inl ⟨rfl, rfl⟩⟩⟩
      · split
        · next hlt => exact ⟨rfl, rfl, rfl, Or.inr ⟨rfl, Or.inr (Or.inl ⟨rfl, hlt, rfl⟩)⟩⟩
        · exact ⟨rfl, rfl, rfl, Or.inr ⟨rfl, Or.inr (Or.inr ⟨rfl, rfl⟩)⟩⟩

theorem msgAfter_status (m : Msg) (o : ExecOut) :
    (msgAfter m o).status = o.msg.status := rfl

theorem msgAfter_attempts (m : Msg) (o : ExecOut) :
    (msgAfter m o).attempts = o.msg.attempts := rfl

theorem msgAfter_maxAttempts (m : Msg) (o : ExecOut) :
    (msgAfter m o).maxAttempts = o.msg.maxAttempts := rfl

theorem msgAfter_jobPending_of_not_thrown {o : ExecOut} (m : Msg)
    (h : o.threw = false) :
    (msgAfter m o).jobPending = decide (o.msg.status = MsgStatus.queued) := by
  unfold msgAfter
  simp [h]

theorem applyExec_inv {s : SysState} {i : Nat} {env : ExecEnv} {s' : SysState}
    (h : applyExec s i env = some s') :
    ∃ m, s.msgs.get? i = some m ∧ m.jobPending = true ∧
      s' = { camp := (execSend m s.camp s.sess s.reg env).camp,
             msgs := s.msgs.set i
               (msgAfter m (execSend m s.camp s.sess s.reg env)),
             sess := (execSend m s.camp s.sess s.reg env).sess,
             reg := (execSend m s.camp s.sess s.reg env).reg } := by
  unfold applyExec at h
  cases hm : s.msgs.get? i with
  | none =>
    rw [hm] at h
    exact Option.noConfusion h
  | some m =>
    rw [hm] at h
    dsimp only at h
    by_cases hp : m.jobPending = true
    · rw [if_pos hp] at h
      injection h with h
      exact ⟨m, rfl, hp, h.symm⟩
    · rw [if_neg hp] at h
      exact Option.noConfusion h

theorem applyExecNoExn_inv {s : SysState} {i : Nat} {env : ExecEnv}
    {s' : SysState} (h : applyExecNoExn s i env = some s') :
    ∃ m, s.msgs.get? i = some m ∧ m.jobPending = true ∧
      (execSend m s.camp s.sess s.reg env).threw = false ∧
      s' = { camp := (execSend m s.camp s.sess s.reg env).camp,
             msgs := s.msgs.set i
               (msgAfter m (execSend m s.camp s.sess s.reg env)),
             sess := (execSend m s.camp s.sess s.reg env).sess,
             reg := (execSend m s.camp s.sess s.reg env).reg } := by
  unfold applyExecNoExn at h
  cases hm : s.msgs.get? i with
  | none =>
    rw [hm] at h
    exact Option.noConfusion h
  | some m =>
    rw [hm] at h
    dsimp only at h
    by_cases ht : (execSend m s.camp s.sess s.reg env).threw = true
    · by_cases hp : m.jobPending = true
      · rw [if_pos hp, if_pos ht] at h
        exact Option.noConfusion h
      · rw [if_neg hp] at h
        exact Option.noConfusion h
    · by_cases hp : m.jobPending = true
      · rw [if_pos hp, if_neg ht] at h
        injection h with h
        exact ⟨m, rfl, hp, Bool.not_eq_true _ ▸ ht, h.symm⟩
      · rw [if_neg hp] at h
        exact Option.noConfusion h

theorem invMsg_old_status {m : Msg} (hinv : InvMsg m)
    (hp : m.jobPending = true) :
    m.status = MsgStatus.queued ∨ m.status = MsgStatus.cancelled := by
  obtain ⟨h1, h2, h3, h4⟩ := hinv
  cases hs : m.status with
  | queued => exact Or.inl rfl
  | sending => exact absurd hs h3
  | sent =>
    have := (h2 (Or.inl hs)).2
    rw [hp] at this
    exact Bool.noConfusion this
  | delivered => exact absurd hs h4
  | failed =>
    have := (h2 (Or.inr hs)).2
    rw [hp] at this
    exact Bool.noConfusion this
  | cancelled => exact Or.inr rfl

theorem invMsg_msgAfter {m : Msg} {o : ExecOut}
    (hth : o.threw = false)
    (ha : o.msg.attempts = m.attempts + 1)
    (hmax : o.msg.maxAttempts = m.maxAttempts)
    (hbound : m.attempts < m.maxAttempts)
    (hst : o.msg.status = MsgStatus.sent ∨ o.msg.status = MsgStatus.failed ∨
      (o.msg.status = MsgStatus.queued ∧ m.attempts + 1 < m.maxAttempts)) :
    InvMsg (msgAfter m o) := by
  refine ⟨fun hqc => ?_, fun hsf => ⟨?_, ?_⟩, ?_, ?_⟩
  · rw [msgAfter_status] at hqc
    rw [msgAfter_attempts, msgAfter_maxAttempts, ha, hmax]
    rcases hst with hs | hs | ⟨hs, hlt⟩
    · rw [hs] at hqc; rcases hqc with h' | h' <;> cases h'
    · rw [hs] at hqc; rcases hqc with h' | h' <;> cases h'
    · exact hlt
  · rw [msgAfter_attempts, msgAfter_maxAttempts, ha, hmax]
    omega
  · rw [msgAfter_jobPending_of_not_thrown m hth]
    rw [msgAfter_status] at hsf
    rcases hsf with hs | hs <;> simp [hs]
  · rw [msgAfter_status]
    rcases hst with hs | hs | ⟨hs, _⟩ <;> rw [hs] <;> simp
  · rw [msgAfter_status]
    rcases hst with hs | hs | ⟨hs, _⟩ <;> rw [hs] <;> simp

theorem goodState_exec {s : SysState} {i : Nat} {env : ExecEnv}
    {s' : SysState} (h : applyExecNoExn s i env = some s')
    (hg : GoodState s) : GoodState s' := by
  obtain ⟨m, hm, hp, hth, rfl⟩ := applyExecNoExn_inv h
  have hmem : m ∈ s.msgs := List.get?_mem hm
  have hinv := hg.msgInv m hmem
  have hold := invMsg_old_status hinv hp
  have holdlt : m.attempts < m.maxAttempts := hinv.1 hold
  obtain ⟨ha, hmax, hjp, hspec⟩ := execSend_spec m s.camp s.sess s.reg env
  have hnotsent : m.status ≠ MsgStatus.sent := by
    rcases hold with h' | h' <;> rw [h'] <;> simp
  have hnotfailed : m.status ≠ MsgStatus.failed := by
    rcases hold with h' | h' <;> rw [h'] <;> simp
  have hcs := countStatus_set MsgStatus.sent hm
    (msgAfter m (execSend m s.camp s.sess s.reg env))
  have hcf := countStatus_set MsgStatus.failed hm
    (msgAfter m (execSend m s.camp s.sess s.reg env))
  rw [if_neg hnotsent] at hcs
  rw [if_neg hnotfailed] at hcf
  have hmeminv : ∀ m'' ∈ s.msgs.set i
      (msgAfter m (execSend m s.camp s.sess s.reg env)),
      m'' ∈ s.msgs ∨ m'' = msgAfter m (execSend m s.camp s.sess s.reg env) :=
    fun m'' hmem'' => List.mem_or_eq_of_mem_set hmem''
  rcases hspec with ⟨hthrew, _⟩ | ⟨_, houts⟩
  · rw [hth] at hthrew
    exact Bool.noConfusion hthrew
  rcases houts with ⟨hs, hcamp⟩ | ⟨hs, hlt, hcamp⟩ | ⟨hs, hcamp⟩
  · -- driver success: message sent, sent_count incremented
    have hif1 : (if (msgAfter m (execSend m s.camp s.sess s.reg env)).status =
        MsgStatus.sent then 1 else 0) = 1 := by
      rw [msgAfter_status, hs]; simp
    have hif2 : (if (msgAfter m (execSend m s.camp s.sess s.reg env)).status =
        MsgStatus.failed then 1 else 0) = 0 := by
      rw [msgAfter_status, hs]; simp
    rw [hif1] at hcs
    rw [hif2] at hcf
    refine ⟨?_, ?_, ?_, ?_⟩ <;> dsimp only
    · rw [hcamp, (checkCompletion_counts _).2.2]
      have := hg.len
      simpa [List.length_set] using this
    · rw [hcamp, (checkCompletion_counts _).1]
      have := hg.sentEq
      try dsimp only at *
      omega
    · rw [hcamp, (checkCompletion_counts _).2.1]
      have := hg.failedEq
      try dsimp only at *
      omega
    · intro m'' hmem''
      rcases hmeminv m'' hmem'' with h'' | rfl
      · exact hg.msgInv m'' h''
      · exact invMsg_msgAfter hth ha hmax holdlt (Or.inl hs)
  · -- driver failure with attempts remaining: requeued
    have hif1 : (if (msgAfter m (execSend m s.camp s.sess s.reg env)).status =
        MsgStatus.sent then 1 else 0) = 0 := by
      rw [msgAfter_status, hs]; simp
    have hif2 : (if (msgAfter m (execSend m s.camp s.sess s.reg env)).status =
        MsgStatus.failed then 1 else 0) = 0 := by
      rw [msgAfter_status, hs]; simp
    rw [hif1] at hcs
    rw [hif2] at hcf
    refine ⟨?_, ?_, ?_, ?_⟩ <;> dsimp only
    · rw [hcamp, (checkCompletion_counts _).2.2]
      have := hg.len
      simpa [List.length_set] using this
    · rw [hcamp, (checkCompletion_counts _).1]
      have := hg.sentEq
      try dsimp only at *
      omega
    · rw [hcamp, (checkCompletion_counts _).2.1]
      have := hg.failedEq
      try dsimp only at *
      omega
    · intro m'' hmem''
      rcases hmeminv m'' hmem'' with h'' | rfl
      · exact hg.msgInv m'' h''
      · exact invMsg_msgAfter hth ha hmax holdlt (Or.inr (Or.inr ⟨hs, hlt⟩))
  · -- driver failure with attempts exhausted: terminal failure
    have hif1 : (if (msgAfter m (execSend m s.camp s.sess s.reg env)).status =
        MsgStatus.sent then 1 else 0) = 0 := by
      rw [msgAfter_status, hs]; simp
    have hif2 : (if (msgAfter m (execSend m s.camp s.sess s.reg env)).status =
        MsgStatus.failed then 1 else 0) = 1 := by
      rw [msgAfter_status, hs]; simp
    rw [hif1] at hcs
    rw [hif2] at hcf
    refine ⟨?_, ?_, ?_, ?_⟩ <;> dsimp only
    · rw [hcamp, (checkCompletion_counts _).2.2]
      have := hg.len
      simpa [List.length_set] using this
    · rw [hcamp, (checkCompletion_counts _).1]
      have := hg.sentEq
      try dsimp only at *
      omega
    · rw [hcamp, (checkCompletion_counts _).2.1]
      have := hg.failedEq
      try dsimp only at *
      omega
    · intro m'' hmem''
      rcases hmeminv m'' hmem'' with h'' | rfl
      · exact hg.msgInv m'' h''
      · exact invMsg_msgAfter hth ha hmax holdlt (Or.inr (Or.inl hs))

theorem invMsg_cancelQueued {m : Msg} (hinv : InvMsg m) :
    InvMsg (cancelQueued m) := by
  unfold cancelQueued
  by_cases hq : m.status = MsgStatus.queued
  · rw [if_pos hq]
    refine ⟨fun _ => hinv.1 (Or.inl hq), fun hsf => ?_, ?_, ?_⟩
    · rcases hsf with h' | h' <;> cases h'
    · intro h'
      cases h'
    · intro h'
      cases h'
  · rw [if_neg hq]
    exact hinv

theorem goodState_pause {s s' : SysState} (h : pauseCampaign s = some s')
    (hg : GoodState s) : GoodState s' := by
  unfold pauseCampaign at h
  by_cases hr : s.camp.status = CampStatus.running
  · rw [if_pos hr] at h
    injection h with h
    subst h
    refine ⟨?_, ?_, ?_, ?_⟩ <;> dsimp only
    · rw [List.length_map]
      exact hg.len
    · rw [countStatus_map_cancelQueued MsgStatus.sent (by decide) (by decide)]
      exact hg.sentEq
    · rw [countStatus_map_cancelQueued MsgStatus.failed (by decide) (by decide)]
      exact hg.failedEq
    · intro m'' hmem''
      obtain ⟨m, hm, rfl⟩ := List.mem_map.mp hmem''
      exact invMsg_cancelQueued (hg.msgInv m hm)
  · rw [if_neg hr] at h
    exact Option.noConfusion h

theorem goodState_step {s : SysState} {st : Step} {s' : SysState}
    (h : applyStepNoExn s st = some s') (hg : GoodState s) : GoodState s' := by
  cases st with
  | exec i env => exact goodState_exec h hg
  | pause => exact goodState_pause h hg

theorem goodState_run {s : SysState} {tr : List Step} {s' : SysState}
    (h : runTraceNoExn s tr = some s') (hg : GoodState s) : GoodState s' := by
  induction tr generalizing s with
  | nil =>
    unfold runTraceNoExn at h
    injection h with h
    subst h
    exact hg
  | cons st rest ih =>
    unfold runTraceNoExn at h
    cases hap : applyStepNoExn s st with
    | none =>
      rw [hap] at h
      exact Option.noConfusion h
    | some s1 =>
      rw [hap] at h
      exact ih h (goodState_step hap hg)

theorem goodState_sum_le {s : SysState} (hg : GoodState s) :
    s.camp.sentCount + s.camp.failedCount ≤ s.camp.totalRecipients := by
  rw [hg.sentEq, hg.failedEq, hg.len]
  exact countStatus_sent_failed_le s.msgs

theorem check_runOrComp {c2 : Camp} (hrun : c2.status = CampStatus.running) :
    (checkCampaignCompletion c2).status = CampStatus.running ∨
      (checkCampaignCompletion c2).status = CampStatus.completed := by
  rw [checkCompletion_status]
  split
  · exact Or.inr rfl
  · exact Or.inl hrun

theorem check_compIff {c2 : Camp} (hrun : c2.status = CampStatus.running)
    (hle : c2.sentCount + c2.failedCount ≤ c2.totalRecipients) :
    ((checkCampaignCompletion c2).status = CampStatus.completed ↔
      (checkCampaignCompletion c2).sentCount +
        (checkCampaignCompletion c2).failedCount =
        (checkCampaignCompletion c2).totalRecipients) := by
  obtain ⟨e1, e2, e3⟩ := checkCompletion_counts c2
  rw [e1, e2, e3, checkCompletion_status]
  split
  · next hcond =>
    constructor
    · intro _
      have := hcond.2
      omega
    · intro _
      rfl
  · next hcond =>
    rw [hrun]
    constructor
    · intro h'
      cases h'
    · intro hsum
      exact absurd ⟨hrun, by omega⟩ hcond

theorem campGood_exec {s : SysState} {i : Nat} {env : ExecEnv}
    {s' : SysState} (h : applyExecNoExn s i env = some s')
    (hg : GoodState s) (hc : CampGood s) : CampGood s' := by
  obtain ⟨m, hm, hp, hth, rfl⟩ := applyExecNoExn_inv h
  have hmem : m ∈ s.msgs := List.get?_mem hm
  have hinv := hg.msgInv m hmem
  have hold := invMsg_old_status hinv hp
  have hnotsent : m.status ≠ MsgStatus.sent := by
    rcases hold with h' | h' <;> rw [h'] <;> simp
  have hnotfailed : m.status ≠ MsgStatus.failed := by
    rcases hold with h' | h' <;> rw [h'] <;> simp
  have hsumlt : s.camp.sentCount + s.camp.failedCount <
      s.camp.totalRecipients := by
    rw [hg.sentEq, hg.failedEq, hg.len]
    exact countStatus_sent_failed_lt hmem hnotsent hnotfailed
  have hrun : s.camp.status = CampStatus.running := by
    rcases hc.runOrComp with h' | h'
    · exact h'
    · have := hc.compIff.mp h'
      omega
  obtain ⟨ha, hmax, hjp, hspec⟩ := execSend_spec m s.camp s.sess s.reg env
  rcases hspec with ⟨hthrew, _⟩ | ⟨_, houts⟩
  · rw [hth] at hthrew
    exact Bool.noConfusion hthrew
  rcases houts with ⟨hs, hcamp⟩ | ⟨hs, hlt, hcamp⟩ | ⟨hs, hcamp⟩
  · refine ⟨?_, ?_⟩ <;> dsimp only <;> rw [hcamp]
    · exact check_runOrComp hrun
    · exact check_compIff hrun (by dsimp only; omega)
  · refine ⟨?_, ?_⟩ <;> dsimp only <;> rw [hcamp]
    · exact check_runOrComp hrun
    · exact check_compIff hrun (by omega)
  · refine ⟨?_, ?_⟩ <;> dsimp only <;> rw [hcamp]
    · exact check_runOrComp hrun
    · exact check_compIff hrun (by dsimp only; omega)

theorem campGood_run {s : SysState} {tr : List Step} {s' : SysState}
    (h : runTraceNoExn s tr = some s') (hex : execOnly tr)
    (hg : GoodState s) (hc : CampGood s) : CampGood s' := by
  induction tr generalizing s with
  | nil =>
    unfold runTraceNoExn at h
    injection h with h
    subst h
    exact hc
  | cons st rest ih =>
    unfold runTraceNoExn at h
    cases hap : applyStepNoExn s st with
    | none =>
      rw [hap] at h
      exact Option.noConfusion h
    | some s1 =>
      rw [hap] at h
      have hex1 : execOnly rest :=
        fun st' hst' => hex st' (List.mem_cons_of_mem _ hst')
      cases st with
      | pause => exact absurd rfl (hex Step.pause (List.mem_cons_self _ _))
      | exec i env =>
        exact ih h hex1 (goodState_exec hap hg) (campGood_exec hap hg hc)

theorem countStatus_replicate (st : MsgStatus) (n : Nat) (m : Msg) :
    countStatus st (List.replicate n m) = if m.status = st then n else 0 := by
  induction n with
  | zero =>
    simp [countStatus]
  | succ k ih =>
    rw [List.replicate_succ, countStatus_cons, ih]
    by_cases h : m.status = st
    · rw [if_pos h, if_pos h, if_pos h]
      omega
    · rw [if_neg h, if_neg h, if_neg h]

theorem invMsg_initMsg : InvMsg initMsg :=
  ⟨fun _ => by decide,
   fun hsf => by rcases hsf with h' | h' <;> exact absurd h' (by decide),
   by decide, by decide⟩

theorem goodState_init (n : Nat) : GoodState (initState n) := by
  refine ⟨?_, ?_, ?_, ?_⟩ <;> dsimp only [initState]
  · rw [List.length_replicate]
  · rw [countStatus_replicate, if_neg (by decide)]
  · rw [countStatus_replicate, if_neg (by decide)]
  · intro m hm
    rw [List.eq_of_mem_replicate hm]
    exact invMsg_initMsg

theorem campGood_init {n : Nat} (hn : 1 ≤ n) : CampGood (initState n) := by
  constructor
  · exact Or.inl rfl
  · constructor
    · intro h'
      cases h'
    · intro h'
      dsimp only [initState] at h'
      exfalso
      omega

theorem get?_set_self {α : Type} {l : List α} {i : Nat} {a : α} (b : α)
    (h : l.get? i = some a) : (l.set i b).get? i = some b := by
  rw [List.get?_set_eq, h]
  rfl

theorem cancelQueued_attempts (m : Msg) :
    (cancelQueued m).attempts = m.attempts := by
  unfold cancelQueued
  split <;> rfl

theorem frozen_step {s2 : SysState} {st : Step} {s3 : SysState}
    (h : applyStepNoExn s2 st = some s3) {i : Nat} {m : Msg}
    (hm : s2.msgs.get? i = some m) (hp : m.jobPending = false)
    (hq : m.status ≠ MsgStatus.queued) :
    s3.msgs.get? i = some m := by
  cases st with
  | pause =>
    unfold applyStepNoExn pauseCampaign at h
    by_cases hr : s2.camp.status = CampStatus.running
    · rw [if_pos hr] at h
      injection h with h
      subst h
      dsimp only
      rw [List.get?_map, hm]
      dsimp only [Option.map_some']
      unfold cancelQueued
      rw [if_neg hq]
    · rw [if_neg hr] at h
      exact Option.noConfusion h
  | exec j env =>
    obtain ⟨m2, hm2, hp2, hth, rfl⟩ := applyExecNoExn_inv h
    dsimp only
    by_cases hij : j = i
    · subst hij
      rw [hm] at hm2
      injection hm2 with e
      subst e
      rw [hp] at hp2
      exact Bool.noConfusion hp2
    · rw [List.get?_set_ne _ s2.msgs hij]
      exact hm

theorem frozen_run {s2 : SysState} {tr : List Step} {s3 : SysState}
    (h : runTraceNoExn s2 tr = some s3) {i : Nat} {m : Msg}
    (hm : s2.msgs.get? i = some m) (hp : m.jobPending = false)
    (hq : m.status ≠ MsgStatus.queued) :
    s3.msgs.get? i = some m := by
  induction tr generalizing s2 with
  | nil =>
    unfold runTraceNoExn at h
    injection h with h
    subst h
    exact hm
  | cons st rest ih =>
    unfold runTraceNoExn at h
    cases hap : applyStepNoExn s2 st with
    | none =>
      rw [hap] at h
      exact Option.noConfusion h
    | some s1 =>
      rw [hap] at h
      exact ih h (frozen_step hap hm hp hq)

theorem applyStep_attempts_mono {s : SysState} {st : Step} {s' : SysState}
    (h : applyStep s st = some s') (i : Nat) :
    msgAttempts s i ≤ msgAttempts s' i := by
  cases st with
  | pause =>
    unfold applyStep pauseCampaign at h
    by_cases hr : s.camp.status = CampStatus.running
    · rw [if_pos hr] at h
      injection h with h
      subst h
      unfold msgAttempts
      dsimp only
      rw [List.get?_map]
      cases hm : s.msgs.get? i with
      | none => simp
      | some m => simp [cancelQueued_attempts]
    · rw [if_neg hr] at h
      exact Option.noConfusion h
  | exec j env =>
    obtain ⟨m, hm, hp, rfl⟩ := applyExec_inv h
    unfold msgAttempts
    dsimp only
    by_cases hij : j = i
    · subst hij
      rw [hm, get?_set_self _ hm]
      have hsp := (execSend_spec m s.camp s.sess s.reg env).1
      simp only [Option.map_some', Option.getD_some, msgAfter_attempts, hsp]
      omega
    · rw [List.get?_set_ne _ s.msgs hij]

theorem runTrace_attempts_mono {s : SysState} {tr : List Step} {s' : SysState}
    (h : runTrace s tr = some s') (i : Nat) :
    msgAttempts s i ≤ msgAttempts s' i := by
  induction tr generalizing s with
  | nil =>
    unfold runTrace at h
    injection h with h
    subst h
    exact le_refl _
  | cons st rest ih =>
    unfold runTrace at h
    cases hap : applyStep s st with
    | none =>
      rw [hap] at h
      exact Option.noConfusion h
    | some s1 =>
      rw [hap] at h
      exact le_trans (applyStep_attempts_mono hap i) (ih h)

/-! ## C1 — attempts monotone, bounded by max_attempts at terminal failure -/

/-- C1 counterexample: starting from a fresh one-message campaign
(`attempts = 0`, `max_attempts = 3`), a sequence of four send-message job
executions — the original job plus the three pg-boss retries, each hitting
the exception path where the freshly probed client is not connected —
leaves the message in status `failed` with `attempts = 4 > 3 =
max_attempts`: attempts exceeds `max_attempts` when the status becomes
`failed`. -/
theorem C1_counterexample :
    ((runTrace (initState 1) exnTrace4).bind fun s => s.msgs.get? 0).map
        (fun m => (m.status, m.attempts, m.maxAttempts)) =
      some (MsgStatus.failed, 4, 3) ∧ ¬ (4 : Nat) ≤ 3 :=
  ⟨rfl, by decide⟩

/-- C1 amended: across any sequence of send-message job executions the
`attempts` counter is monotonically non-decreasing; and along executions
that never take the exception path (the handler never re-raises to the
queue), a message whose status is `failed` satisfies
`attempts ≤ max_attempts`.  (The exception path increments `attempts` and
marks the message `failed` without consulting `max_attempts`, so with
queue-level retries `attempts` can exceed `max_attempts`.) -/
theorem C1_theorem :
    (∀ (s : SysState) (tr : List Step) (s' : SysState),
        runTrace s tr = some s' → ∀ i : Nat,
        msgAttempts s i ≤ msgAttempts s' i) ∧
    (∀ (n : Nat), 1 ≤ n → ∀ (tr : List Step) (s' : SysState),
        runTraceNoExn (initState n) tr = some s' →
        ∀ m ∈ s'.msgs, m.status = MsgStatus.failed →
          m.attempts ≤ m.maxAttempts) := by
  constructor
  · intro s tr s' h i
    exact runTrace_attempts_mono h i
  · intro n hn tr s' h m hm hf
    have hg := goodState_run h (goodState_init n)
    exact ((hg.msgInv m hm).2.1 (Or.inr hf)).1

theorem C1_witness : c1Msg.attempts ≤ c1Msg.maxAttempts :=
  C1_theorem.2 1 (by decide) failTrace3 c1Final (by decide) c1Msg
    (by decide) (by decide)

/-! ## C2 — campaign counters bounded, completion on exact exhaustion -/

/-- C2 counterexample: on a one-message campaign (`total_recipients = 1`),
two executions that both hit the exception path (the original job and its
first pg-boss retry) each increment `failed_count` in the catch block,
leaving `sent_count + failed_count = 2 > 1 = total_recipients`. -/
theorem C2_counterexample :
    ((runTrace (initState 1)
        [Step.exec 0 envProbeQr, Step.exec 0 envProbeQr]).map
      fun s => (s.camp.sentCount, s.camp.failedCount,
                s.camp.totalRecipients)) = some (0, 2, 1) ∧
    ¬ (0 + 2 : Nat) ≤ 1 :=
  ⟨rfl, by decide⟩

/-- C2 amended: along executions that never take the exception path,
`sent_count + failed_count ≤ total_recipients` holds in every reachable
state (pause steps included); and along exception-free executions without
pause the campaign's status is `completed` exactly when
`sent_count + failed_count = total_recipients` (the completion check fires
while the campaign is `running`, and `≥ total` then coincides with
equality). -/
theorem C2_theorem :
    (∀ (n : Nat), 1 ≤ n → ∀ (tr : List Step) (s' : SysState),
        runTraceNoExn (initState n) tr = some s' →
        s'.camp.sentCount + s'.camp.failedCount ≤
          s'.camp.totalRecipients) ∧
    (∀ (n : Nat), 1 ≤ n → ∀ (tr : List Step) (s' : SysState),
        execOnly tr → runTraceNoExn (initState n) tr = some s' →
        (s'.camp.status = CampStatus.completed ↔
          s'.camp.sentCount + s'.camp.failedCount =
            s'.camp.totalRecipients)) := by
  constructor
  · intro n hn tr s' h
    exact goodState_sum_le (goodState_run h (goodState_init n))
  · intro n hn tr s' hex h
    exact (campGood_run h hex (goodState_init n) (campGood_init hn)).compIff

theorem C2_witness :
    (c2Final.camp.sentCount + c2Final.camp.failedCount ≤
      c2Final.camp.totalRecipients) ∧
    (c2Final.camp.status = CampStatus.completed ↔
      c2Final.camp.sentCount + c2Final.camp.failedCount =
        c2Final.camp.totalRecipients) :=
  ⟨C2_theorem.1 1 (by decide) c2Trace c2Final (by decide),
   C2_theorem.2 1 (by decide) c2Trace c2Final
     (by unfold execOnly c2Trace; decide) (by decide)⟩

/-! ## C3 — terminal statuses are not protected from later executions -/

/-- C3 counterexample: on a one-message campaign, pausing cancels the
`queued` message; but its queue job is still pending, and when it fires
with a successful send the dispatch pipeline re-marks the `cancelled`
message `sending` and then `sent` — a terminal status is changed by a
later job execution. -/
theorem C3_counterexample :
    (((runTrace (initState 1) [Step.pause]).bind fun s =>
        s.msgs.get? 0).map Msg.status = some MsgStatus.cancelled) ∧
    (((runTrace (initState 1) [Step.pause, Step.exec 0 envOk]).bind fun s =>
        s.msgs.get? 0).map Msg.status = some MsgStatus.sent) :=
  ⟨rfl, rfl⟩

/-- C3 amended: the pause route sets `cancelled` exactly on `queued`
messages (so `cancelled` is reachable only from `queued`), and along
exception-free executions a message that has reached `sent` or `failed` is
never changed again (its queue job has been consumed); but a `cancelled`
message's still-pending queue job is not guarded by the pipeline, so it can
later be re-marked `sending` and driven to `sent` or back to `queued`. -/
theorem C3_theorem :
    (∀ (s s' : SysState), pauseCampaign s = some s' →
      s.camp.status = CampStatus.running ∧
      s'.camp.status = CampStatus.paused ∧
      s'.msgs = s.msgs.map cancelQueued ∧
      ∀ m : Msg, ((cancelQueued m).status = MsgStatus.cancelled ↔
        (m.status = MsgStatus.queued ∨ m.status = MsgStatus.cancelled))) ∧
    (∀ (n : Nat), 1 ≤ n → ∀ (tr1 : List Step) (s : SysState),
      runTraceNoExn (initState n) tr1 = some s →
      ∀ (i : Nat) (m : Msg), s.msgs.get? i = some m →
      (m.status = MsgStatus.sent ∨ m.status = MsgStatus.failed) →
      ∀ (tr2 : List Step) (s' : SysState), runTraceNoExn s tr2 = some s' →
      s'.msgs.get? i = some m) := by
  constructor
  · intro s s' h
    unfold pauseCampaign at h
    by_cases hr : s.camp.status = CampStatus.running
    · rw [if_pos hr] at h
      injection h with h
      subst h
      refine ⟨hr, rfl, rfl, ?_⟩
      intro m
      unfold cancelQueued
      by_cases hq : m.status = MsgStatus.queued
      · rw [if_pos hq]
        exact ⟨fun _ => Or.inl hq, fun _ => rfl⟩
      · rw [if_neg hq]
        constructor
        · intro h'
          exact Or.inr h'
        · intro h'
          rcases h' with h' | h'
          · exact absurd h' hq
          · exact h'
    · rw [if_neg hr] at h
      exact Option.noConfusion h
  · intro n hn tr1 s h1 i m hm hsf tr2 s' h2
    have hg := goodState_run h1 (goodState_init n)
    have hinv := hg.msgInv m (List.get?_mem hm)
    have hp : m.jobPending = false := (hinv.2.1 hsf).2
    have hq : m.status ≠ MsgStatus.queued := by
      rcases hsf with h' | h' <;> rw [h'] <;> simp
    exact frozen_run h2 hm hp hq

theorem C3_witness : c3Final.msgs.get? 0 = some c3Msg :=
  C3_theorem.2 2 (by decide) [Step.exec 0 envOk] c3Mid (by decide) 0 c3Msg
    (by decide) (by decide) c3Trace2 c3Final (by decide)

end SmsDispatch
